import Mathlib

/-!
Verification of the Obo Car simulation core.

A shallow embedding in Lean 4 of the Obo Car vehicle simulation:

* `OboChar` — the standalone kinematic/sensor engine
  (`python-lib/obocar/vehicle.py`): dead-reckoning motion, angular
  sensor cones over point obstacles, collision and battery accounting,
  and an event log.
* `OboCar` — the browser-bridged variant (`public/obocar.py`), where
  mutating commands are forwarded to an external 3D renderer and the
  outcome of each bridge call is made an explicit parameter.

Machine floats are modelled by real numbers; the ambient clock
(`time.time()`) is modelled by a monotone counter carried in the state;
the random number generator (sensor noise, generated obstacle fields)
is modelled by explicit parameters.
-/

noncomputable section

open Classical Real

namespace OboSim

/-- Python's float modulo `x % y` for `y > 0`: the representative of
`x` in `[0, y)`.  Defined, as in Python for a positive divisor, by
`x - y * floor (x / y)`. -/
def fmod (x y : ℝ) : ℝ := x - y * ⌊x / y⌋

/-- `math.radians`: degrees to radians. -/
def radians (deg : ℝ) : ℝ := deg * (Real.pi / 180)

/-- `math.degrees`: radians to degrees. -/
def degrees (rad : ℝ) : ℝ := rad * 180 / Real.pi

/-- `math.atan2 y x`: the angle of the point `(x, y)` in `(-π, π]`,
by the standard case split on the signs of the arguments. -/
def atan2 (y x : ℝ) : ℝ :=
  if 0 < x then Real.arctan (y / x)
  else if x < 0 then
    (if 0 ≤ y then Real.arctan (y / x) + Real.pi else Real.arctan (y / x) - Real.pi)
  else
    (if 0 < y then Real.pi / 2 else if y < 0 then -(Real.pi / 2) else 0)

/-- Python's `round(x, 1)`: round to one decimal place.  (Python breaks
exact midpoints half-to-even while `round` breaks them half-up; no
property proved here evaluates `round1` at a midpoint.) -/
def round1 (x : ℝ) : ℝ := ((round (10 * x) : ℤ) : ℝ) / 10

/-- The command recorded by `_log_event` (the formatted message string,
kept structured). -/
inductive EventKind where
  | forwardCmd (d : ℝ)
  | leftCmd (deg : ℝ)
  | rightCmd (deg : ℝ)
  | sensorCmd (dir : String) (value : ℝ)
  | waitCmd (secs : ℝ)
  | resetCmd

/-- One entry of `_event_log`: timestamp plus snapshots of position,
heading and battery at logging time. -/
structure Event where
  time : ℕ
  kind : EventKind
  position : ℝ × ℝ
  angle : ℝ
  battery : ℝ

/-- The state of an `OboChar` instance (`vehicle.py`).  `clock` stands
in for the ambient `time.time()` clock: it ticks once per logged
event. -/
structure OboState where
  position : ℝ × ℝ
  angle : ℝ
  speed : ℝ
  battery_level : ℝ
  total_distance : ℝ
  sensor_range : ℝ
  obstacles : List (ℝ × ℝ)
  event_log : List Event
  clock : ℕ

/-- `OboChar.__init__`, with the randomly generated obstacle field
passed in explicitly. -/
def initState (obs : List (ℝ × ℝ)) : OboState :=
  { position := (0, 0)
    angle := 0
    speed := 0
    battery_level := 100
    total_distance := 0
    sensor_range := 20
    obstacles := obs
    event_log := []
    clock := 0 }

/-- `OboChar._log_event`: append an event with state snapshots and tick
the clock. -/
def logEvent (k : EventKind) (s : OboState) : OboState :=
  { s with
    event_log := s.event_log ++
      [{ time := s.clock, kind := k, position := s.position,
         angle := s.angle, battery := s.battery_level }]
    clock := s.clock + 1 }

/-- Euclidean distance from the vehicle position `p` to an obstacle
`o`, as computed in the source (`math.sqrt(dx**2 + dy**2)`). -/
def obstDist (p o : ℝ × ℝ) : ℝ :=
  Real.sqrt ((o.1 - p.1) ^ 2 + (o.2 - p.2) ^ 2)

/-- The loop body of `OboChar._check_collisions`: find the first
obstacle strictly closer than the threshold `1.0`. -/
def scanCollide (p : ℝ × ℝ) : List (ℝ × ℝ) → Option (ℝ × ℝ)
  | [] => none
  | o :: rest => if obstDist p o < 1 then some o else scanCollide p rest

/-- `OboChar._check_collisions`: returns whether a collision happened;
on the first obstacle within the threshold it applies the one-time
battery penalty of 10 (floored at 0) and stops scanning. -/
def checkCollisions (s : OboState) : Bool × OboState :=
  match scanCollide s.position s.obstacles with
  | some _ => (true, { s with battery_level := max 0 (s.battery_level - 10) })
  | none => (false, s)

/-- The pure state update of `OboChar.forward` before the collision
check: log, move by `d` along the heading (clockwise from +Y), add
`|d|` to the odometer, drain battery by `|d| * 1.0` (floored at 0). -/
def movedState (d : ℝ) (s : OboState) : OboState :=
  let s1 := logEvent (.forwardCmd d) s
  { s1 with
    position := (s1.position.1 + d * Real.sin (radians s1.angle),
                 s1.position.2 + d * Real.cos (radians s1.angle))
    total_distance := s1.total_distance + |d|
    battery_level := max 0 (s1.battery_level - |d| * 1.0) }

/-- `OboChar.forward`. -/
def forward (d : ℝ) (s : OboState) : OboState :=
  (checkCollisions (movedState d s)).2

/-- `OboChar.backward`: the source delegates to `forward(-distance)`
(its own print aside, it performs no state change of its own). -/
def backward (d : ℝ) (s : OboState) : OboState :=
  forward (-d) s

/-- `OboChar.left`: log, heading `(angle - degrees) % 360`, fixed 0.5
battery drain floored at 0. -/
def left (deg : ℝ) (s : OboState) : OboState :=
  let s1 := logEvent (.leftCmd deg) s
  { s1 with
    angle := fmod (s1.angle - deg) 360
    battery_level := max 0 (s1.battery_level - 0.5) }

/-- `OboChar.right`: log, heading `(angle + degrees) % 360`, fixed 0.5
battery drain floored at 0. -/
def right (deg : ℝ) (s : OboState) : OboState :=
  let s1 := logEvent (.rightCmd deg) s
  { s1 with
    angle := fmod (s1.angle + deg) 360
    battery_level := max 0 (s1.battery_level - 0.5) }

/-- `OboChar.get_position`: current coordinates rounded to one
decimal. -/
def get_position (s : OboState) : ℝ × ℝ :=
  (round1 s.position.1, round1 s.position.2)

/-- The `sensor_angles` table of `OboChar.sensor`: relative offset of
each recognized direction, `none` for an unrecognized one. -/
def sensorOffset (dir : String) : Option ℝ :=
  if dir = "front" then some 0
  else if dir = "right" then some 90
  else if dir = "back" then some 180
  else if dir = "left" then some 270
  else none

/-- The angular difference computed per obstacle in `OboChar.sensor`:
`abs((angle_to_obstacle - sensor_angle + 180) % 360 - 180)` with
`angle_to_obstacle = degrees(atan2(dx, dy))`. -/
def angleDiff (p : ℝ × ℝ) (sensorAngle : ℝ) (o : ℝ × ℝ) : ℝ :=
  |fmod (degrees (atan2 (o.1 - p.1) (o.2 - p.2)) - sensorAngle + 180) 360 - 180|

/-- The obstacle loop of `OboChar.sensor`: running minimum distance
over obstacles whose angular difference is at most 30°, starting from
the accumulator `m` (the sensor range). -/
def sensorScan (p : ℝ × ℝ) (sensorAngle : ℝ) : List (ℝ × ℝ) → ℝ → ℝ
  | [], m => m
  | o :: rest, m =>
      sensorScan p sensorAngle rest
        (if angleDiff p sensorAngle o ≤ 30 ∧ obstDist p o < m then obstDist p o else m)

/-- `OboChar.sensor`, with the random noise drawn from
`random.uniform(-0.2, 0.2)` passed in explicitly.  An unrecognized
direction raises `ValueError` before any state change: the `.error`
case carries the message and the state at raise time.  On success the
reading is logged and the new state returned. -/
def sensor (dir : String) (noise : ℝ) (s : OboState) :
    Except (String × OboState) (ℝ × OboState) :=
  match sensorOffset dir with
  | none => .error ("Invalid sensor direction: " ++ dir, s)
  | some off =>
      let sensorAngle := fmod (s.angle + off) 360
      let minDistance := sensorScan s.position sensorAngle s.obstacles s.sensor_range
      let result := max 0.1 (minDistance + noise)
      .ok (result, logEvent (.sensorCmd dir result) s)

/-- `OboChar.reset`: restore the initial position, heading, speed,
battery and odometer, install a freshly generated obstacle field
(passed in explicitly), clear the event log, then log `reset()`. -/
def reset (newObs : List (ℝ × ℝ)) (s : OboState) : OboState :=
  logEvent .resetCmd
    { s with
      position := (0, 0)
      angle := 0
      speed := 0
      battery_level := 100
      total_distance := 0
      obstacles := newObs
      event_log := [] }

/-- A turn command, for reasoning about turn-only call sequences. -/
inductive TurnCmd where
  | leftBy (deg : ℝ)
  | rightBy (deg : ℝ)

/-- Execute a sequence of turn commands. -/
def runTurns : List TurnCmd → OboState → OboState
  | [], s => s
  | .leftBy d :: rest, s => runTurns rest (left d s)
  | .rightBy d :: rest, s => runTurns rest (right d s)

/-- Net signed degrees of a turn sequence: `right` adds, `left`
subtracts. -/
def netDegrees : List TurnCmd → ℝ
  | [] => 0
  | .leftBy d :: rest => netDegrees rest - d
  | .rightBy d :: rest => netDegrees rest + d

/-- A public command of the standalone vehicle, with all randomness
explicit. -/
inductive Cmd where
  | forwardBy (d : ℝ)
  | backwardBy (d : ℝ)
  | leftBy (deg : ℝ)
  | rightBy (deg : ℝ)
  | senseBy (dir : String) (noise : ℝ)

/-- One command step.  A failed `sensor` call propagates its exception
to the caller leaving the state as it was at raise time. -/
def step (c : Cmd) (s : OboState) : OboState :=
  match c with
  | .forwardBy d => forward d s
  | .backwardBy d => backward d s
  | .leftBy deg => left deg s
  | .rightBy deg => right deg s
  | .senseBy dir noise =>
      match sensor dir noise s with
      | .ok (_, s1) => s1
      | .error (_, s1) => s1

/-- Execute a sequence of commands. -/
def run (cmds : List Cmd) (s : OboState) : OboState :=
  cmds.foldl (fun s c => step c s) s

/-- The in-cone test of `OboChar.sensor`: angular difference to the
sensor bearing at most 30°. -/
def inCone (p : ℝ × ℝ) (sensorAngle : ℝ) (o : ℝ × ℝ) : Bool :=
  if angleDiff p sensorAngle o ≤ 30 then true else false

/-- The sensor reading predicted for a recognized direction with
offset `off`: the minimum of the sensor range and the distances of all
in-cone obstacles, plus noise, clamped below at 0.1. -/
def sensorModel (off noise : ℝ) (s : OboState) : ℝ :=
  max 0.1
    (List.foldr min s.sensor_range
      ((s.obstacles.filter (inCone s.position (fmod (s.angle + off) 360))).map
        (obstDist s.position)) + noise)

/-- The in-cone minimum distance as C4 words it: the minimum Euclidean
distance over in-cone obstacles when any exist (with no cap at the
sensor range), and the sensor range when none is in the cone. -/
def claimSensorMin (s : OboState) (sensorAngle : ℝ) : ℝ :=
  match (s.obstacles.filter (inCone s.position sensorAngle)).map (obstDist s.position) with
  | [] => s.sensor_range
  | d :: ds => List.foldr min d ds

/-- The conjunction claimed for the turn commands: heading update by
modulo-360 arithmetic, fixed 0.5 battery drain floored at 0, position
and odometer untouched, and for any turn-only sequence a final heading
of `(initial + net signed degrees) mod 360`, always in `[0, 360)`. -/
def TurnClaim (deg : ℝ) (s : OboState) (turns : List TurnCmd) : Prop :=
  (left deg s).angle = fmod (s.angle - deg) 360
  ∧ (right deg s).angle = fmod (s.angle + deg) 360
  ∧ (left deg s).battery_level = max 0 (s.battery_level - 0.5)
  ∧ (right deg s).battery_level = max 0 (s.battery_level - 0.5)
  ∧ (left deg s).position = s.position
  ∧ (left deg s).total_distance = s.total_distance
  ∧ (right deg s).position = s.position
  ∧ (right deg s).total_distance = s.total_distance
  ∧ (runTurns turns s).angle = fmod (s.angle + netDegrees turns) 360
  ∧ 0 ≤ (runTurns turns s).angle
  ∧ (runTurns turns s).angle < 360

end OboSim

/-! Section: The browser-bridged vehicle (`public/obocar.py`) -/

namespace OboPub

open OboSim (fmod radians EventKind)

/-- One entry of the bridged vehicle's `_event_log` (no battery
field). -/
structure PEvent where
  time : ℕ
  kind : EventKind
  position : ℝ × ℝ
  angle : ℝ

/-- The state of an `OboCar` instance (`public/obocar.py`), in browser
mode. -/
structure PubState where
  position : ℝ × ℝ
  angle : ℝ
  speed : ℝ
  total_distance : ℝ
  event_log : List PEvent
  clock : ℕ

/-- `OboCar.__init__`. -/
def pubInit : PubState :=
  { position := (0, 0), angle := 0, speed := 0, total_distance := 0,
    event_log := [], clock := 0 }

/-- `OboCar._log_event`. -/
def pubLog (k : EventKind) (s : PubState) : PubState :=
  { s with
    event_log := s.event_log ++
      [{ time := s.clock, kind := k, position := s.position, angle := s.angle }]
    clock := s.clock + 1 }

/-- `OboCar._calculate_forward_position`: the local arithmetic
fallback — trigonometric move plus odometer update. -/
def calcForward (d : ℝ) (s : PubState) : PubState :=
  { s with
    position := (s.position.1 + d * Real.sin (radians s.angle),
                 s.position.2 + d * Real.cos (radians s.angle))
    total_distance := s.total_distance + |d| }

/-- Outcome of the renderer bridge calls made by `OboCar.forward`:
either `oboCarAPI.move` is missing, or some bridge call raised, or the
whole exchange succeeded and `getPosition()` reported the 3D point
`pos`. -/
inductive MoveBridge where
  | missing
  | throws
  | ok (pos : ℝ × ℝ × ℝ)

/-- `OboCar.forward` in browser mode.  On bridge success the renderer
is authoritative: position is taken from its `(x, y, z)` report as
`(x, z)`.  A missing `move` method or any raised error falls back to
the local arithmetic model; `_check_collisions` of this variant always
returns `False` and changes nothing. -/
def pubForward (br : MoveBridge) (d : ℝ) (s : PubState) : PubState :=
  let s1 := pubLog (.forwardCmd d) s
  match br with
  | .ok p => { s1 with
      position := (p.1, p.2.2)
      total_distance := s1.total_distance + |d| }
  | .missing => calcForward d s1
  | .throws => calcForward d s1

/-- Outcome of the bridge exchange made by `OboCar.backward`: either
some call raised, or it succeeded and `getPosition()` reported
`pos`. -/
inductive BackBridge where
  | throws
  | ok (pos : ℝ × ℝ × ℝ)

/-- `OboCar.backward` in browser mode: on success, position comes from
the renderer (no odometer update, no event logged); on any raised
error it falls back to `self.forward(-distance)`, whose own bridge
outcome is `brF`. -/
def pubBackward (brB : BackBridge) (brF : MoveBridge) (d : ℝ) (s : PubState) : PubState :=
  match brB with
  | .ok p => { s with position := (p.1, p.2.2) }
  | .throws => pubForward brF (-d) s

/-- Outcome of the `oboCarAPI.rotate` call made by `OboCar.left` /
`OboCar.right`. -/
inductive RotBridge where
  | throws
  | ok

/-- `OboCar.left` in browser mode: the rotation command is queued to
the renderer and the local `angle` is deliberately not updated —
neither on success (the animation system applies it later) nor on a
raised error (the code only prints a warning). -/
def pubLeft (br : RotBridge) (deg : ℝ) (s : PubState) : PubState :=
  let s1 := pubLog (.leftCmd deg) s
  match br with
  | .ok => s1
  | .throws => s1

/-- `OboCar.right` in browser mode: same shape as `pubLeft`. -/
def pubRight (br : RotBridge) (deg : ℝ) (s : PubState) : PubState :=
  let s1 := pubLog (.rightCmd deg) s
  match br with
  | .ok => s1
  | .throws => s1

end OboPub

namespace OboSim

/-! Section: Arithmetic facts about the float modulo -/

theorem fmod_zero_left (y : ℝ) : fmod 0 y = 0 := by
  simp [fmod]

theorem fmod_eq_fract (x y : ℝ) (hy : y ≠ 0) : fmod x y = y * Int.fract (x / y) := by
  unfold fmod Int.fract
  rw [mul_sub, mul_div_cancel₀ x hy]

theorem fmod_nonneg (x y : ℝ) (hy : 0 < y) : 0 ≤ fmod x y := by
  rw [fmod_eq_fract x y hy.ne.symm]
  exact mul_nonneg hy.le (Int.fract_nonneg _)

theorem fmod_lt (x y : ℝ) (hy : 0 < y) : fmod x y < y := by
  rw [fmod_eq_fract x y hy.ne.symm]
  calc y * Int.fract (x / y) < y * 1 := by
        exact mul_lt_mul_of_pos_left (Int.fract_lt_one _) hy
    _ = y := mul_one y

theorem fmod_eq_self (x y : ℝ) (h0 : 0 ≤ x) (h1 : x < y) : fmod x y = x := by
  have hy : 0 < y := lt_of_le_of_lt h0 h1
  have hfloor : ⌊x / y⌋ = 0 := by
    rw [Int.floor_eq_zero_iff]
    constructor
    · exact div_nonneg h0 hy.le
    · rw [div_lt_one hy]; exact h1
  simp [fmod, hfloor]

theorem fract_shift (u v : ℝ) : Int.fract (Int.fract u + v) = Int.fract (u + v) := by
  have h : Int.fract u + v = (u + v) - (⌊u⌋ : ℤ) := by
    rw [Int.fract]; ring
  rw [h, Int.fract_sub_int]

theorem fmod_add_left (a b y : ℝ) (hy : 0 < y) :
    fmod (fmod a y + b) y = fmod (a + b) y := by
  have hy' : y ≠ 0 := hy.ne.symm
  rw [fmod_eq_fract a y hy', fmod_eq_fract _ y hy', fmod_eq_fract (a + b) y hy']
  have h1 : (y * Int.fract (a / y) + b) / y = Int.fract (a / y) + b / y := by
    field_simp; ring
  rw [h1, fract_shift, div_add_div_same]

theorem fmod_sub_left (a b y : ℝ) (hy : 0 < y) :
    fmod (fmod a y - b) y = fmod (a - b) y := by
  have := fmod_add_left a (-b) y hy
  simpa [sub_eq_add_neg] using this

/-! Section: Structural facts about the collision check -/

theorem checkCollisions_preserves (s : OboState) :
    (checkCollisions s).2.position = s.position
    ∧ (checkCollisions s).2.angle = s.angle
    ∧ (checkCollisions s).2.total_distance = s.total_distance
    ∧ (checkCollisions s).2.event_log = s.event_log
    ∧ (checkCollisions s).2.obstacles = s.obstacles
    ∧ (checkCollisions s).2.clock = s.clock := by
  unfold checkCollisions
  rcases h : scanCollide s.position s.obstacles with _ | o <;> simp

/-! Section: C1: forward motion -/

/-- C1.  `forward(d)` moves the position to
`(x + d·sin(heading_rad), y + d·cos(heading_rad))` (heading clockwise
from +Y), leaves the heading unchanged, adds `|d|` to the odometer,
drains battery by `|d|·1.0` floored at 0, and then runs the collision
check on that moved state; from the initial state, `forward(3)`
followed by `get_position()` yields `(0.0, 3.0)`. -/
theorem forward_moves_then_checks (d : ℝ) (s : OboState) (obs : List (ℝ × ℝ)) :
    forward d s = (checkCollisions (movedState d s)).2
    ∧ (forward d s).position
        = (s.position.1 + d * Real.sin (radians s.angle),
           s.position.2 + d * Real.cos (radians s.angle))
    ∧ (forward d s).angle = s.angle
    ∧ (forward d s).total_distance = s.total_distance + |d|
    ∧ (movedState d s).battery_level = max 0 (s.battery_level - |d| * 1.0)
    ∧ get_position (forward 3 (initState obs)) = (0, 3) := by
  obtain ⟨hp, ha, ht, _, _, _⟩ := checkCollisions_preserves (movedState d s)
  refine ⟨rfl, ?_, ?_, ?_, rfl, ?_⟩
  · rw [forward, hp]; rfl
  · rw [forward, ha]; rfl
  · rw [forward, ht]; rfl
  · obtain ⟨hp3, _⟩ := checkCollisions_preserves (movedState 3 (initState obs))
    have hpos : (movedState 3 (initState obs)).position = (0, 3) := by
      simp [movedState, logEvent, initState, radians]
    rw [get_position, forward, hp3, hpos]
    show (round1 0, round1 3) = (0, 3)
    have h0 : round1 (0 : ℝ) = 0 := by simp [round1]
    have h3 : round1 (3 : ℝ) = 3 := by
      have h : (10 : ℝ) * 3 = ((30 : ℤ) : ℝ) := by norm_num
      simp only [round1, h, round_intCast]
      norm_num
    rw [h0, h3]

/-! Section: C2: backward is forward of the negation -/

/-- C2.  `backward(d)` produces exactly the same resulting state
(position, heading, battery, odometer, obstacles and event log) as
`forward(-d)` from the same starting state: the source delegates
directly. -/
theorem backward_eq_forward_neg (d : ℝ) (s : OboState) :
    backward d s = forward (-d) s := rfl

/-! Section: C10: battery depletion never inhibits motion -/

/-- C10.  With the battery at 0, `forward(d)` still moves the full
distance and adds `|d|` to the odometer, exactly as it would with a
full battery: no battery gate exists in the motion path. -/
theorem forward_ignores_battery (d : ℝ) (s : OboState) :
    (forward d { s with battery_level := 0 }).position
      = (s.position.1 + d * Real.sin (radians s.angle),
         s.position.2 + d * Real.cos (radians s.angle))
    ∧ (forward d { s with battery_level := 0 }).total_distance = s.total_distance + |d|
    ∧ (forward d { s with battery_level := 0 }).position
        = (forward d { s with battery_level := 100 }).position
    ∧ (forward d { s with battery_level := 0 }).total_distance
        = (forward d { s with battery_level := 100 }).total_distance := by
  obtain ⟨hp0, _, ht0, _⟩ := checkCollisions_preserves (movedState d { s with battery_level := 0 })
  obtain ⟨hp1, _, ht1, _⟩ := checkCollisions_preserves (movedState d { s with battery_level := 100 })
  refine ⟨?_, ?_, ?_, ?_⟩
  · rw [forward, hp0]; rfl
  · rw [forward, ht0]; rfl
  · rw [forward, forward, hp0, hp1]; rfl
  · rw [forward, forward, ht0, ht1]; rfl

/-! Section: C3: turning and heading normalization -/

theorem runTurns_angle (turns : List TurnCmd) :
    ∀ s : OboState, 0 ≤ s.angle → s.angle < 360 →
      (runTurns turns s).angle = fmod (s.angle + netDegrees turns) 360 := by
  induction turns with
  | nil =>
      intro s h0 h1
      show s.angle = fmod (s.angle + netDegrees []) 360
      rw [show netDegrees [] = 0 from rfl, add_zero, fmod_eq_self s.angle 360 h0 h1]
  | cons t rest ih =>
      intro s h0 h1
      cases t with
      | leftBy d =>
          have hL : (left d s).angle = fmod (s.angle - d) 360 := rfl
          have h0' : 0 ≤ (left d s).angle := hL ▸ fmod_nonneg _ _ (by norm_num)
          have h1' : (left d s).angle < 360 := hL ▸ fmod_lt _ _ (by norm_num)
          show (runTurns rest (left d s)).angle = _
          rw [ih (left d s) h0' h1', hL, fmod_add_left _ _ _ (by norm_num)]
          congr 1
          show s.angle - d + netDegrees rest = s.angle + (netDegrees rest - d)
          ring
      | rightBy d =>
          have hR : (right d s).angle = fmod (s.angle + d) 360 := rfl
          have h0' : 0 ≤ (right d s).angle := hR ▸ fmod_nonneg _ _ (by norm_num)
          have h1' : (right d s).angle < 360 := hR ▸ fmod_lt _ _ (by norm_num)
          show (runTurns rest (right d s)).angle = _
          rw [ih (right d s) h0' h1', hR, fmod_add_left _ _ _ (by norm_num)]
          congr 1
          show s.angle + d + netDegrees rest = s.angle + (netDegrees rest + d)
          ring

/-- C3.  `left(deg)` sets the heading to `(heading - deg) mod 360` and
`right(deg)` to `(heading + deg) mod 360` (any real `deg`), each
draining exactly 0.5 battery floored at 0 and leaving position and
odometer unchanged; any turn-only sequence from a normalized heading
ends at `(initial + net signed degrees) mod 360`, always in
`[0, 360)`. -/
theorem turn_heading_spec (deg : ℝ) (s : OboState) (turns : List TurnCmd)
    (h0 : 0 ≤ s.angle) (h1 : s.angle < 360) : TurnClaim deg s turns := by
  have hrun := runTurns_angle turns s h0 h1
  refine ⟨rfl, rfl, rfl, rfl, rfl, rfl, rfl, rfl, hrun, ?_, ?_⟩
  · rw [hrun]; exact fmod_nonneg _ _ (by norm_num)
  · rw [hrun]; exact fmod_lt _ _ (by norm_num)

/-- Witness for C3: the initial state with heading 0, turning by 90,
with the sequence right 90 then left 30. -/
theorem turn_heading_spec_witness :
    0 ≤ (initState []).angle ∧ (initState []).angle < 360 ∧
    TurnClaim 90 (initState []) [TurnCmd.rightBy 90, TurnCmd.leftBy 30] :=
  ⟨le_refl 0, by norm_num [initState],
   turn_heading_spec 90 (initState []) [TurnCmd.rightBy 90, TurnCmd.leftBy 30]
     (le_refl 0) (by norm_num [initState])⟩

/-! Section: C5: the invalid-direction failure of the sensor -/

theorem sensorOffset_none_iff (dir : String) :
    sensorOffset dir = none ↔
      ¬(dir = "front" ∨ dir = "right" ∨ dir = "back" ∨ dir = "left") := by
  unfold sensorOffset
  by_cases h1 : dir = "front" <;> by_cases h2 : dir = "right" <;>
    by_cases h3 : dir = "back" <;> by_cases h4 : dir = "left" <;>
    simp [h1, h2, h3, h4]

/-- C5.  `sensor(direction)` fails if and only if the direction is not
one of the four recognized values; the failure is surfaced to the
caller as the raised error, carrying the state exactly as it was
before the call (nothing, the event log included, has been
mutated). -/
theorem sensor_invalid_spec (dir : String) (noise : ℝ) (s : OboState) :
    ((∃ r, sensor dir noise s = .ok r) ↔
      (dir = "front" ∨ dir = "right" ∨ dir = "back" ∨ dir = "left"))
    ∧ (sensorOffset dir = none →
        sensor dir noise s = .error ("Invalid sensor direction: " ++ dir, s)) := by
  constructor
  · constructor
    · rintro ⟨r, hr⟩
      by_contra hval
      have hnone : sensorOffset dir = none := (sensorOffset_none_iff dir).2 hval
      simp [sensor, hnone] at hr
    · intro hval
      have hsome : ∃ off, sensorOffset dir = some off := by
        rcases hval with rfl | rfl | rfl | rfl
        · exact ⟨0, rfl⟩
        · exact ⟨90, rfl⟩
        · exact ⟨180, rfl⟩
        · exact ⟨270, rfl⟩
      obtain ⟨off, hoff⟩ := hsome
      cases hs : sensor dir noise s with
      | ok r => exact ⟨r, rfl⟩
      | error e => simp [sensor, hoff] at hs
  · intro hnone
    simp [sensor, hnone]

/-- Witness for C5: direction "up" is rejected with the state
untouched. -/
theorem sensor_invalid_spec_witness :
    sensor "up" 0 (initState []) =
      .error ("Invalid sensor direction: " ++ "up", initState []) :=
  (sensor_invalid_spec "up" 0 (initState [])).2 rfl

/-! Section: C6: reset -/

/-- Counterexample to C6 as stated: after `reset()` the event log is
not empty — `reset` clears it and then logs the `reset()` event
itself, so one entry remains. -/
theorem reset_log_not_cleared :
    (reset [] (initState [])).event_log
      = [{ time := 0, kind := .resetCmd, position := (0, 0), angle := 0, battery := 100 }]
    ∧ (reset [] (initState [])).event_log ≠ [] := by
  refine ⟨rfl, ?_⟩
  rw [show (reset [] (initState [])).event_log
      = [{ time := 0, kind := .resetCmd, position := (0, 0), angle := 0,
           battery := 100 }] from rfl]
  simp

/-- C6 (amended).  `reset()` restores position `(0,0)`, heading 0,
battery 100 and odometer 0 from any prior state, installs the freshly
generated obstacle field, and clears the event log before logging the
reset itself — so afterwards the log holds exactly that one reset
event. -/
theorem reset_spec (newObs : List (ℝ × ℝ)) (s : OboState) :
    (reset newObs s).position = (0, 0)
    ∧ (reset newObs s).angle = 0
    ∧ (reset newObs s).battery_level = 100
    ∧ (reset newObs s).total_distance = 0
    ∧ (reset newObs s).obstacles = newObs
    ∧ (reset newObs s).event_log
        = [{ time := s.clock, kind := .resetCmd, position := (0, 0), angle := 0,
             battery := 100 }] :=
  ⟨rfl, rfl, rfl, rfl, rfl, rfl⟩

/-! Section: C7: the battery invariant -/

theorem max_drain_le {b x : ℝ} (hb : 0 ≤ b) (hx : 0 ≤ x) : max 0 (b - x) ≤ b :=
  max_le hb (by linarith)

theorem checkCollisions_battery (s : OboState) (h : 0 ≤ s.battery_level) :
    (checkCollisions s).2.battery_level ≤ s.battery_level
    ∧ 0 ≤ (checkCollisions s).2.battery_level := by
  unfold checkCollisions
  rcases hscan : scanCollide s.position s.obstacles with _ | o
  · exact ⟨le_refl _, h⟩
  · exact ⟨max_drain_le h (by norm_num), le_max_left _ _⟩

theorem step_battery (c : Cmd) (s : OboState) (h : 0 ≤ s.battery_level) :
    (step c s).battery_level ≤ s.battery_level ∧ 0 ≤ (step c s).battery_level := by
  cases c with
  | forwardBy d =>
      have hmv : (movedState d s).battery_level = max 0 (s.battery_level - |d| * 1.0) := rfl
      have h0 : 0 ≤ (movedState d s).battery_level := hmv ▸ le_max_left _ _
      have h1 : (movedState d s).battery_level ≤ s.battery_level := by
        rw [hmv]
        exact max_drain_le h (by positivity)
      obtain ⟨h2, h3⟩ := checkCollisions_battery (movedState d s) h0
      exact ⟨le_trans h2 h1, h3⟩
  | backwardBy d =>
      have hmv : (movedState (-d) s).battery_level
          = max 0 (s.battery_level - |(-d)| * 1.0) := rfl
      have h0 : 0 ≤ (movedState (-d) s).battery_level := hmv ▸ le_max_left _ _
      have h1 : (movedState (-d) s).battery_level ≤ s.battery_level := by
        rw [hmv]
        exact max_drain_le h (by positivity)
      obtain ⟨h2, h3⟩ := checkCollisions_battery (movedState (-d) s) h0
      exact ⟨le_trans h2 h1, h3⟩
  | leftBy deg =>
      exact ⟨max_drain_le h (by norm_num), le_max_left _ _⟩
  | rightBy deg =>
      exact ⟨max_drain_le h (by norm_num), le_max_left _ _⟩
  | senseBy dir noise =>
      rcases hoff : sensorOffset dir with _ | off
      · have : step (.senseBy dir noise) s = s := by simp [step, sensor, hoff]
        rw [this]
        exact ⟨le_refl _, h⟩
      · have : step (.senseBy dir noise) s
            = logEvent (.sensorCmd dir
                (max 0.1 (sensorScan s.position (fmod (s.angle + off) 360)
                  s.obstacles s.sensor_range + noise))) s := by
          simp [step, sensor, hoff]
        rw [this]
        exact ⟨le_refl _, h⟩

theorem run_cons (c : Cmd) (cs : List Cmd) (s : OboState) :
    run (c :: cs) s = run cs (step c s) := rfl

theorem run_append (xs ys : List Cmd) (s : OboState) :
    run (xs ++ ys) s = run ys (run xs s) := by
  simp [run, List.foldl_append]

theorem run_battery (cmds : List Cmd) :
    ∀ s : OboState, 0 ≤ s.battery_level →
      (run cmds s).battery_level ≤ s.battery_level
      ∧ 0 ≤ (run cmds s).battery_level := by
  induction cmds with
  | nil => intro s h; exact ⟨le_refl _, h⟩
  | cons c cs ih =>
      intro s h
      obtain ⟨h1, h2⟩ := step_battery c s h
      obtain ⟨h3, h4⟩ := ih (step c s) h2
      rw [run_cons]
      exact ⟨le_trans h3 h1, h4⟩

/-- C7.  In every state reachable from the initial state by
forward/backward/left/right/sensor commands the battery satisfies
`0 ≤ battery ≤ 100`, and the battery is monotonically non-increasing
across any continuation of the command sequence. -/
theorem battery_invariant (obs : List (ℝ × ℝ)) (cmds more : List Cmd) :
    0 ≤ (run cmds (initState obs)).battery_level
    ∧ (run cmds (initState obs)).battery_level ≤ 100
    ∧ (run (cmds ++ more) (initState obs)).battery_level
        ≤ (run cmds (initState obs)).battery_level := by
  have hb : (initState obs).battery_level = 100 := rfl
  have base : (0 : ℝ) ≤ (initState obs).battery_level := by rw [hb]; norm_num
  obtain ⟨hle, hge⟩ := run_battery cmds (initState obs) base
  refine ⟨hge, ?_, ?_⟩
  · rw [hb] at hle; exact hle
  · rw [run_append]
    exact (run_battery more _ hge).1

/-! Section: C8: the collision check -/

theorem scanCollide_some_iff (p : ℝ × ℝ) (l : List (ℝ × ℝ)) :
    (∃ o, scanCollide p l = some o) ↔ ∃ o ∈ l, obstDist p o < 1 := by
  induction l with
  | nil => simp [scanCollide]
  | cons o rest ih =>
      by_cases h : obstDist p o < 1
      · simp [scanCollide, h]
      · simp only [scanCollide, if_neg h, ih]
        simp [h]

/-- C8.  `_check_collisions` reports a collision if and only if some
obstacle lies strictly within the 1.0-unit threshold of the current
position, and on a collision the state change is exactly one battery
penalty of 10 floored at 0 (applied once per call, however many
obstacles are in range); without a collision the state is
untouched. -/
theorem checkCollisions_spec (s : OboState) :
    ((checkCollisions s).1 = true ↔ ∃ o ∈ s.obstacles, obstDist s.position o < 1)
    ∧ (checkCollisions s).2
        = (if (checkCollisions s).1 = true
           then { s with battery_level := max 0 (s.battery_level - 10) }
           else s) := by
  rcases hscan : scanCollide s.position s.obstacles with _ | o
  · have hnone : ¬∃ o, scanCollide s.position s.obstacles = some o := by
      simp [hscan]
    constructor
    · simp only [checkCollisions, hscan]
      simpa using (not_iff_not.2 (scanCollide_some_iff s.position s.obstacles)).1 hnone
    · simp [checkCollisions, hscan]
  · have hsome : ∃ o, scanCollide s.position s.obstacles = some o := ⟨o, hscan⟩
    constructor
    · simp only [checkCollisions, hscan]
      simpa using (scanCollide_some_iff s.position s.obstacles).1 hsome
    · simp [checkCollisions, hscan]

/-! Section: C4: the sensor reading -/

theorem inCone_iff (p : ℝ × ℝ) (sa : ℝ) (o : ℝ × ℝ) :
    inCone p sa o = true ↔ angleDiff p sa o ≤ 30 := by
  simp [inCone]

theorem foldr_min_min (d m : ℝ) (L : List ℝ) :
    List.foldr min (min d m) L = min d (List.foldr min m L) := by
  induction L with
  | nil => rfl
  | cons x xs ih =>
      show min x (List.foldr min (min d m) xs) = min d (min x (List.foldr min m xs))
      rw [ih, min_left_comm]

theorem sensorScan_eq_foldr (p : ℝ × ℝ) (sa : ℝ) (l : List (ℝ × ℝ)) :
    ∀ m : ℝ, sensorScan p sa l m
      = List.foldr min m ((l.filter (inCone p sa)).map (obstDist p)) := by
  induction l with
  | nil => intro m; rfl
  | cons o rest ih =>
      intro m
      by_cases hc : angleDiff p sa o ≤ 30
      · have hstep : (if angleDiff p sa o ≤ 30 ∧ obstDist p o < m
              then obstDist p o else m) = min (obstDist p o) m := by
          by_cases hd : obstDist p o < m
          · rw [if_pos ⟨hc, hd⟩, min_eq_left hd.le]
          · rw [if_neg (fun hh => hd hh.2), min_eq_right (le_of_not_lt hd)]
        have hfil : (o :: rest).filter (inCone p sa)
            = o :: rest.filter (inCone p sa) :=
          List.filter_cons_of_pos ((inCone_iff p sa o).2 hc)
        show sensorScan p sa rest
            (if angleDiff p sa o ≤ 30 ∧ obstDist p o < m then obstDist p o else m) = _
        rw [hstep, ih, hfil, List.map_cons, List.foldr_cons, foldr_min_min]
      · have hfil : (o :: rest).filter (inCone p sa) = rest.filter (inCone p sa) :=
          List.filter_cons_of_neg (by simp [inCone_iff, hc])
        show sensorScan p sa rest
            (if angleDiff p sa o ≤ 30 ∧ obstDist p o < m then obstDist p o else m) = _
        rw [if_neg (fun hh => hc hh.1), ih, hfil]

theorem sensor_ok_eq (dir : String) (off noise : ℝ) (s : OboState)
    (hdir : sensorOffset dir = some off) :
    sensor dir noise s = .ok
      (max 0.1 (sensorScan s.position (fmod (s.angle + off) 360)
          s.obstacles s.sensor_range + noise),
       logEvent (.sensorCmd dir
          (max 0.1 (sensorScan s.position (fmod (s.angle + off) 360)
            s.obstacles s.sensor_range + noise))) s) := by
  simp [sensor, hdir]

/-- C4 (amended).  For a recognized direction and any noise in
`[-0.2, 0.2]`, the sensor returns `max(0.1, m + noise)` where `m` is
the minimum of the sensor range (20 in the initial state) and the
Euclidean distances of the obstacles in the ±30° cone around
`(heading + offset) mod 360` — so `m` is the range when no obstacle is
in the cone, and an in-cone obstacle farther than the range does not
lower it; the reading is always at least 0.1. -/
theorem sensor_reading_spec (dir : String) (off noise : ℝ) (s : OboState)
    (hdir : sensorOffset dir = some off) (_hn1 : -0.2 ≤ noise) (_hn2 : noise ≤ 0.2) :
    sensor dir noise s = .ok (sensorModel off noise s,
        logEvent (.sensorCmd dir (sensorModel off noise s)) s)
    ∧ 0.1 ≤ sensorModel off noise s := by
  have hm : sensorModel off noise s
      = max 0.1 (sensorScan s.position (fmod (s.angle + off) 360)
          s.obstacles s.sensor_range + noise) := by
    rw [sensorModel, sensorScan_eq_foldr]
  constructor
  · rw [hm]; exact sensor_ok_eq dir off noise s hdir
  · rw [sensorModel]; exact le_max_left _ _

/-- Witness for C4 (amended): heading 0, one obstacle straight ahead
at `(0, 5)`, no noise. -/
theorem sensor_reading_spec_witness :
    sensorOffset "front" = some 0 ∧ (-0.2 : ℝ) ≤ 0 ∧ (0 : ℝ) ≤ 0.2 ∧
    (sensor "front" 0 (initState [(0, 5)])
        = .ok (sensorModel 0 0 (initState [(0, 5)]),
            logEvent (.sensorCmd "front" (sensorModel 0 0 (initState [(0, 5)])))
              (initState [(0, 5)]))
      ∧ 0.1 ≤ sensorModel 0 0 (initState [(0, 5)])) :=
  ⟨rfl, by norm_num, by norm_num,
   sensor_reading_spec "front" 0 0 (initState [(0, 5)]) rfl (by norm_num) (by norm_num)⟩

theorem atan2_zero_pos : atan2 0 25 = 0 := by
  rw [atan2, if_pos (by norm_num : (0 : ℝ) < 25)]
  norm_num [Real.arctan_zero]

theorem obstDist_far : obstDist (0, 0) ((0 : ℝ), (25 : ℝ)) = 25 := by
  have h : (((0 : ℝ), (25 : ℝ)).1 - ((0 : ℝ), (0 : ℝ)).1) ^ 2
      + (((0 : ℝ), (25 : ℝ)).2 - ((0 : ℝ), (0 : ℝ)).2) ^ 2 = 25 ^ 2 := by norm_num
  rw [obstDist, h]
  exact Real.sqrt_sq (by norm_num)

theorem angleDiff_far : angleDiff (0, 0) 0 ((0 : ℝ), (25 : ℝ)) = 0 := by
  have h1 : (((0 : ℝ), (25 : ℝ)).1 - ((0 : ℝ), (0 : ℝ)).1) = (0 : ℝ) := by norm_num
  have h2 : (((0 : ℝ), (25 : ℝ)).2 - ((0 : ℝ), (0 : ℝ)).2) = (25 : ℝ) := by norm_num
  rw [angleDiff, h1, h2, atan2_zero_pos]
  have h3 : degrees 0 - 0 + 180 = (180 : ℝ) := by simp [degrees]
  rw [h3, fmod_eq_self 180 360 (by norm_num) (by norm_num)]
  norm_num

/-- Counterexample to C4 as stated: with heading 0, sensor range 20
and a single obstacle straight ahead at `(0, 25)` — in the cone but
beyond the range — the code returns `max(0.1, 20 + noise)` (the range
still caps the minimum), while the claim's `m` (minimum distance over
in-cone obstacles, range only when the cone is empty) is 25: at noise
0 the code reads 20, the claim demands 25. -/
theorem sensor_claim_counterexample :
    sensor "front" 0 (initState [(0, 25)])
      = .ok (20, logEvent (.sensorCmd "front" 20) (initState [(0, 25)]))
    ∧ claimSensorMin (initState [(0, 25)])
        (fmod ((initState [(0, 25)]).angle + 0) 360) = 25
    ∧ max 0.1 (claimSensorMin (initState [(0, 25)])
        (fmod ((initState [(0, 25)]).angle + 0) 360) + 0) = 25
    ∧ (20 : ℝ) ≠ 25 := by
  have hsa : fmod ((initState [((0 : ℝ), (25 : ℝ))]).angle + 0) 360 = 0 := by
    show fmod ((0 : ℝ) + 0) 360 = 0
    rw [add_zero, fmod_zero_left]
  have hcone : inCone ((0 : ℝ), (0 : ℝ)) 0 ((0 : ℝ), (25 : ℝ)) = true := by
    rw [inCone, if_pos]
    rw [angleDiff_far]; norm_num
  have hscan : sensorScan ((0 : ℝ), (0 : ℝ)) 0 [((0 : ℝ), (25 : ℝ))] 20 = 20 := by
    show sensorScan ((0 : ℝ), (0 : ℝ)) 0 []
        (if angleDiff (0, 0) 0 ((0 : ℝ), (25 : ℝ)) ≤ 30
            ∧ obstDist (0, 0) ((0 : ℝ), (25 : ℝ)) < 20
         then obstDist (0, 0) ((0 : ℝ), (25 : ℝ)) else 20) = 20
    rw [if_neg (fun hh => by rw [obstDist_far] at hh; exact absurd hh.2 (by norm_num))]
    rfl
  have hclaim : claimSensorMin (initState [(0, 25)])
      (fmod ((initState [(0, 25)]).angle + 0) 360) = 25 := by
    rw [hsa, claimSensorMin]
    have hfil : (List.filter (inCone (initState [((0 : ℝ), (25 : ℝ))]).position 0)
        (initState [((0 : ℝ), (25 : ℝ))]).obstacles) = [((0 : ℝ), (25 : ℝ))] := by
      show List.filter (inCone ((0 : ℝ), (0 : ℝ)) 0) [((0 : ℝ), (25 : ℝ))] = _
      rw [List.filter_cons_of_pos hcone]
      rfl
    rw [hfil]
    show List.foldr min (obstDist ((0 : ℝ), (0 : ℝ)) ((0 : ℝ), (25 : ℝ))) [] = 25
    rw [List.foldr_nil, obstDist_far]
  refine ⟨?_, hclaim, by rw [hclaim]; norm_num, by norm_num⟩
  have h := sensor_ok_eq "front" 0 0 (initState [(0, 25)]) rfl
  rw [h]
  have hval : max 0.1 (sensorScan (initState [((0 : ℝ), (25 : ℝ))]).position
      (fmod ((initState [((0 : ℝ), (25 : ℝ))]).angle + 0) 360)
      (initState [((0 : ℝ), (25 : ℝ))]).obstacles
      (initState [((0 : ℝ), (25 : ℝ))]).sensor_range + 0) = 20 := by
    rw [hsa]
    show max 0.1 (sensorScan ((0 : ℝ), (0 : ℝ)) 0 [((0 : ℝ), (25 : ℝ))] 20 + 0) = 20
    rw [hscan]; norm_num
  rw [hval]

end OboSim

namespace OboPub

open OboSim (fmod radians EventKind)

/-! Section: C9: bridge failure handling in browser mode -/

theorem floor_neg_quarter : ⌊(-90 : ℝ) / 360⌋ = -1 := by
  rw [Int.floor_eq_iff]; norm_num

/-- Counterexample to C9 as stated: in browser mode, when the
`rotate` bridge call raises, `OboCar.left(90)` leaves the local
heading at its old value 0 instead of the local-arithmetic result
`(0 - 90) mod 360 = 270` — the turn commands never run the local
trigonometry in bridged mode, on failure or success. -/
theorem pubLeft_claim_counterexample :
    (pubLeft .throws 90 pubInit).angle = 0
    ∧ fmod (pubInit.angle - 90) 360 = 270
    ∧ (pubLeft .throws 90 pubInit).angle ≠ fmod (pubInit.angle - 90) 360 := by
  have hmod : fmod (pubInit.angle - 90) 360 = 270 := by
    show fmod ((0 : ℝ) - 90) 360 = 270
    rw [show (0 : ℝ) - 90 = -90 by norm_num, OboSim.fmod, floor_neg_quarter]
    norm_num
  refine ⟨rfl, hmod, ?_⟩
  rw [hmod]
  show (0 : ℝ) ≠ 270
  norm_num

/-- C9 (amended).  In browser mode, no bridge failure is propagated
(every command is a total state function of the bridge outcome), and:
`forward` and `backward` fall back to the local arithmetic model on
any bridge failure (a missing `move` method included), moving the
position by local trigonometry and adding `|d|` to the odometer;
`left` and `right`, however, recover from a bridge failure by leaving
the local heading unchanged (only the event log grows), deferring the
rotation to later scene synchronization rather than applying the
local arithmetic. -/
theorem pub_bridge_failure_spec (d deg : ℝ) (s : PubState) :
    pubForward .throws d s = calcForward d (pubLog (.forwardCmd d) s)
    ∧ pubForward .missing d s = calcForward d (pubLog (.forwardCmd d) s)
    ∧ (pubForward .throws d s).position
        = (s.position.1 + d * Real.sin (radians s.angle),
           s.position.2 + d * Real.cos (radians s.angle))
    ∧ (pubForward .throws d s).total_distance = s.total_distance + |d|
    ∧ pubBackward .throws .throws d s = pubForward .throws (-d) s
    ∧ pubLeft .throws deg s = pubLog (.leftCmd deg) s
    ∧ (pubLeft .throws deg s).angle = s.angle
    ∧ pubRight .throws deg s = pubLog (.rightCmd deg) s
    ∧ (pubRight .throws deg s).angle = s.angle :=
  ⟨rfl, rfl, rfl, rfl, rfl, rfl, rfl, rfl, rfl⟩

end OboPub
